import Mathlib

/-!
Shallow embedding of the COBA Chase online-banking scraper
(src/coba/__init__.py) and verification of its specification claims.

Strings are modelled as Lean `String`s (lists of characters); the Python
string operations used by the source (`strip`, `split`, `lower`,
`startswith`, substring membership, regex substitution with the concrete
patterns the source uses) are given executable definitions below.
-/

deriving instance DecidableEq for Except

namespace Coba

/-! ## Python string primitives used by the source -/

/-- Python whitespace characters recognised by `str.strip` / `str.split()`. -/
def isWs (c : Char) : Bool :=
  c = ' ' ∨ c = '\t' ∨ c = '\n' ∨ c = '\x0d' ∨ c = '\x0b' ∨ c = '\x0c'

/-- Remove leading and trailing whitespace from a character list. -/
def trimChars (cs : List Char) : List Char :=
  ((cs.dropWhile isWs).reverse.dropWhile isWs).reverse

/-- Python `str.strip()`. -/
def pyStrip (s : String) : String :=
  String.mk (trimChars s.data)

/-- Python `a.startswith(b)`. -/
def pyStartsWith (s pre : String) : Bool :=
  pre.data.isPrefixOf s.data

/-- Python `a.endswith(b)`. -/
def pyEndsWith (s suf : String) : Bool :=
  suf.data.isSuffixOf s.data

/-- Substring containment: Python `pat in hay` for strings. -/
def containsSub (pat : List Char) : List Char → Bool
  | [] => pat.isEmpty
  | c :: rest => pat.isPrefixOf (c :: rest) || containsSub pat rest

/-- Python `pat in hay` on `String`s. -/
def pyIn (pat hay : String) : Bool :=
  containsSub pat.data hay.data

/-- Split a character list at every character satisfying `p`
(Python `str.split(sep)` semantics: empty groups are kept). -/
def splitBy (p : Char → Bool) : List Char → List (List Char)
  | [] => [[]]
  | c :: rest =>
    match splitBy p rest with
    | [] => [[]]
    | g :: gs => if p c then [] :: g :: gs else (c :: g) :: gs

/-- Python `value.split("/")`. -/
def splitSlash (s : String) : List String :=
  (splitBy (fun c => c = '/') s.data).map String.mk

/-- Python `str.split()` with no argument: split on whitespace runs,
dropping empty groups. -/
def pySplitWs (s : String) : List String :=
  ((splitBy isWs s.data).filter (fun g => ¬ g.isEmpty)).map String.mk

/-- Python `" ".join(xs)`. -/
def joinSpace (xs : List String) : String :=
  String.intercalate " " xs

/-- Value of a nonempty all-digit character list, `none` otherwise. -/
def digitsToNat (cs : List Char) : Option Nat :=
  if cs ≠ [] ∧ cs.all Char.isDigit then
    some (cs.foldl (fun a c => a * 10 + (c.toNat - 48)) 0)
  else
    Option.none

/-- Python `int(s)`: optional surrounding whitespace, optional sign,
then decimal digits. -/
def pyInt (s : String) : Option Int :=
  match trimChars s.data with
  | '-' :: ds => (digitsToNat ds).map (fun n => -(n : Int))
  | '+' :: ds => (digitsToNat ds).map (fun n => (n : Int))
  | ds => (digitsToNat ds).map (fun n => (n : Int))

/-- Validity of the mantissa part of a decimal literal:
`digits`, `digits.digits`, `digits.`, or `.digits`. -/
def decMantissaValid (cs : List Char) : Bool :=
  match splitBy (fun c => c = '.') cs with
  | [a] => ¬ a.isEmpty ∧ a.all Char.isDigit
  | [a, b] => a.all Char.isDigit ∧ b.all Char.isDigit ∧ (¬ a.isEmpty ∨ ¬ b.isEmpty)
  | _ => false

/-- Validity of an exponent part: optional sign then digits. -/
def decExpValid (cs : List Char) : Bool :=
  match cs with
  | '+' :: ds => ¬ ds.isEmpty ∧ ds.all Char.isDigit
  | '-' :: ds => ¬ ds.isEmpty ∧ ds.all Char.isDigit
  | ds => ¬ ds.isEmpty ∧ ds.all Char.isDigit

/-- Whether Python `decimal.Decimal(s)` succeeds on `s`
(numeric literals only; `NaN` and `Infinity` spellings are not produced
by the scraper's inputs and are not modelled). -/
def decValid (s : String) : Bool :=
  let t := trimChars s.data
  let t2 := match t with
    | '+' :: r => r
    | '-' :: r => r
    | r => r
  match splitBy (fun c => c = 'e' ∨ c = 'E') t2 with
  | [m] => decMantissaValid m
  | [m, ex] => decMantissaValid m ∧ decExpValid ex
  | _ => false

/-- Whether Python `float(s)` succeeds on `s`
(ordinary decimal/exponent literals; `inf`/`nan` spellings not modelled). -/
def pyFloatValid (s : String) : Bool :=
  decValid s

/-! ## `wordize` (source lines 566-571)

`re.sub('\\b_|_\\b', '', re.sub('[^a-z0-9_-]+', '_', text.lower()))` -/

/-- Character class `[a-z0-9_-]` of the inner substitution. -/
def isAllowed (c : Char) : Bool :=
  ('a' ≤ c ∧ c ≤ 'z') ∨ ('0' ≤ c ∧ c ≤ '9') ∨ c = '_' ∨ c = '-'

/-- Regex word character `\w` (`[a-zA-Z0-9_]`), used by `\b`. -/
def isWordChar (c : Char) : Bool :=
  ('a' ≤ c ∧ c ≤ 'z') ∨ ('A' ≤ c ∧ c ≤ 'Z') ∨ ('0' ≤ c ∧ c ≤ '9') ∨ c = '_'

/-- `re.sub('[^a-z0-9_-]+', '_', ·)`: replace each maximal run of
disallowed characters by a single underscore.  The flag records whether
the previous character belonged to a disallowed run already replaced. -/
def collapseGo : Bool → List Char → List Char
  | _, [] => []
  | inRun, c :: rest =>
    if isAllowed c then c :: collapseGo false rest
    else if inRun then collapseGo true rest
    else '_' :: collapseGo true rest

/-- Collapse runs of characters outside `[a-z0-9_-]` to one underscore. -/
def collapseRuns (cs : List Char) : List Char :=
  collapseGo false cs

/-- Truth of `isWordChar` on an optional character (string edges count as
non-word, as `\b` treats them). -/
def isWordOpt : Option Char → Bool
  | some c => isWordChar c
  | Option.none => false

/-- `re.sub('\\b_|_\\b', '', ·)`: delete every underscore that has a
regex word boundary immediately before or after it.  Each match is a
single character, so matches never overlap and each underscore of the
original string is deleted independently of the other deletions; `prev`
carries the character preceding the current position in the original
string. -/
def wbStrip : Option Char → List Char → List Char
  | _, [] => []
  | prev, c :: rest =>
    if c = '_' ∧ (¬ isWordOpt prev ∨ ¬ isWordOpt rest.head?) then
      wbStrip (some c) rest
    else
      c :: wbStrip (some c) rest

/-- `wordize` (source lines 566-571). -/
def wordize (s : String) : String :=
  String.mk (wbStrip Option.none (collapseRuns (s.data.map Char.toLower)))

/-- Positional description of the boundary-underscore deletion: the
character at index `i` survives iff it is not an underscore with a word
boundary on either side, where `prev` stands for the character before
index 0.  (Second formulation of the same pass, used to state the
corrected claim about `wordize`.) -/
def keepIdx (prev : Option Char) (cs : List Char) (i : Nat) : Bool :=
  match cs.get? i with
  | Option.none => false
  | some c =>
    if c = '_' then
      (if i = 0 then isWordOpt prev else isWordOpt (cs.get? (i - 1))) ∧
        isWordOpt (cs.get? (i + 1))
    else
      true

/-- Index-based formulation of the boundary-underscore deletion pass. -/
def stripSpecFrom (prev : Option Char) (cs : List Char) : List Char :=
  (List.range cs.length).filterMap
    (fun i => if keepIdx prev cs i then cs.get? i else Option.none)

/-- Reading of the claim's words for `wordize`: lower-case, collapse runs
of characters outside `[a-z0-9_-]` to one underscore, then remove only
the leading and trailing underscores of the result. -/
def claimWordize (s : String) : String :=
  let collapsed := collapseRuns (s.data.map Char.toLower)
  String.mk
    (((collapsed.dropWhile (fun c => c = '_')).reverse.dropWhile
        (fun c => c = '_')).reverse)

/-- `re.sub('\s+', ' ', ·)`: condense whitespace runs to single spaces. -/
def condenseGo : Bool → List Char → List Char
  | _, [] => []
  | inWs, c :: rest =>
    if isWs c then
      if inWs then condenseGo true rest else ' ' :: condenseGo true rest
    else
      c :: condenseGo false rest

/-- Condense whitespace runs of a string to single spaces. -/
def condenseWs (s : String) : String :=
  String.mk (condenseGo false s.data)

/-! ## Scraped values (dates, currency, raw text)

Python values stored by the row-coercion code: `None`, a raw string, a
`decimal.Decimal` (kept as its literal text), or a `datetime.datetime`
(kept as the order-preserving key `y * 10000 + m * 100 + d`). -/

inductive PyVal where
  | pnone : PyVal
  | pstr : String → PyVal
  | pmoney : String → PyVal
  | pdate : Nat → PyVal
deriving DecidableEq, Repr

/-- Gregorian leap-year rule used by `datetime.datetime`. -/
def isLeap (y : Nat) : Bool :=
  y % 4 = 0 ∧ (y % 100 ≠ 0 ∨ y % 400 = 0)

/-- Days in a month, as validated by `datetime.datetime(y, m, d)`. -/
def daysInMonth (y m : Nat) : Nat :=
  if m = 1 ∨ m = 3 ∨ m = 5 ∨ m = 7 ∨ m = 8 ∨ m = 10 ∨ m = 12 then 31
  else if m = 4 ∨ m = 6 ∨ m = 9 ∨ m = 11 then 30
  else if isLeap y then 29
  else 28

/-- Order-preserving encoding of a valid calendar date. -/
def dateKey (y m d : Nat) : Nat :=
  y * 10000 + m * 100 + d

/-- `m, d, y = map(int, value.split('/'))` followed by
`datetime.datetime(y, m, d)`: `none` exactly when that sequence raises
`ValueError` (wrong number of parts, a part that is not an integer, or
an out-of-range date). -/
def parseDateMDY (s : String) : Option Nat :=
  match splitSlash s with
  | [ms, ds, ys] =>
    match pyInt ms, pyInt ds, pyInt ys with
    | some m, some d, some y =>
      if 0 ≤ m ∧ 0 ≤ d ∧ 0 ≤ y then
        let mn := m.toNat
        let dn := d.toNat
        let yn := y.toNat
        if 1 ≤ yn ∧ yn ≤ 9999 ∧ 1 ≤ mn ∧ mn ≤ 12 ∧ 1 ≤ dn ∧
            dn ≤ daysInMonth yn mn then
          some (dateKey yn mn dn)
        else
          Option.none
      else
        Option.none
    | _, _, _ => Option.none
  | _ => Option.none

/-- `re.sub('[^0-9.-]+', '', value)`: keep only digits, `.` and `-`. -/
def moneyClean (s : String) : String :=
  String.mk (s.data.filter (fun c => c.isDigit ∨ c = '.' ∨ c = '-'))

/-- Truthiness of a `decimal.Decimal` held as its literal text: zero
(all digit characters `0`) is falsy. -/
def moneyTruthy (s : String) : Bool :=
  s.data.any (fun c => c.isDigit ∧ c ≠ '0')

/-! ## Accounts-list value coercion (source lines 259-276) -/

/-- Value coercion of a two-cell accounts-list row (lines 263-276):
the trimmed right-cell text becomes a `Decimal` when it starts with `$`
or `-$` (an invalid cleaned literal raises `decimal.InvalidOperation`,
which nothing catches), becomes a date when it contains `/` and the
`m/d/y` parse succeeds (a failed parse is caught and the raw text
kept), and otherwise stays raw text. -/
def coerceAccountValue (right : String) : Except String PyVal :=
  let value := pyStrip right
  if pyStartsWith value "$" ∨ pyStartsWith value "-$" then
    let cleaned := moneyClean value
    if decValid cleaned then .ok (.pmoney cleaned)
    else .error "decimal.InvalidOperation"
  else if value.data.contains '/' then
    match parseDateMDY value with
    | some k => .ok (.pdate k)
    | Option.none => .ok (.pstr value)
  else
    .ok (.pstr value)

/-! ## Transaction-history row coercion (source lines 321-393) -/

/-- `row_key_map` (source lines 322-331): recognised wordized column
names and the transaction-constructor field each one feeds. -/
def rowKeyMap (k : String) : Option String :=
  if k = "balance" then some "balance"
  else if k = "transaction_date" then some "date"
  else if k = "date" then some "date"
  else if k = "type" then some "type"
  else if k = "memo_description" then some "memo"
  else if k = "transaction_number" then some "id"
  else if k = "debit_credit_amount" then some "amount"
  else if k = "debit_credit" then some "amount"
  else Option.none

/-- Processing of a two-cell transaction row (source lines 371-393).
`left` and `right` are the space-joined contents of the two cells.
Returns `.ok none` when the wordized key is not in `row_key_map` (the
row is skipped), `.ok (some (field, value))` with the coerced value
otherwise, and `.error` when the coercion raises (`Decimal` failure on
a `$`-prefixed value, or an unparseable non-`Pending` date). -/
def coerceTxPair (left right : String) : Except String (Option (String × PyVal)) :=
  let key := wordize left
  match rowKeyMap key with
  | Option.none => .ok Option.none
  | some ck =>
    let value := pyStrip right
    if pyStartsWith value "$" ∨ pyStartsWith value "-$" then
      let cleaned := moneyClean value
      if decValid cleaned then .ok (some (ck, .pmoney cleaned))
      else .error "decimal.InvalidOperation"
    else if value = "--" ∨ (value = "" ∧ key ≠ "memo") then
      .ok (some (ck, .pnone))
    else if ck = "date" then
      if value = "Pending" then .ok (some (ck, .pnone))
      else
        match parseDateMDY value with
        | some k => .ok (some (ck, .pdate k))
        | Option.none => .error "ValueError: invalid date"
    else
      .ok (some (ck, .pstr value))

/-! ## Pages and the error detector (source lines 185-198)

A page models the features of `self.browser.contents` that the source
inspects: the login form (`soup.find(id='auth_form')`), the coaching
banner (`soup.find(class_='coaching')` with its `href` attribute and
text nodes), the `'EnterActivationCode'` substring, the
`'Step 4 of 4'` substring, and an opaque body distinguishing pages. -/

structure CoachingTag where
  href : Option String
  textNodes : List String
deriving DecidableEq, Repr

structure Page where
  hasAuthForm : Bool
  coaching : Option CoachingTag
  hasActivationMarker : Bool
  hasStep4 : Bool
  body : String
deriving DecidableEq, Repr

/-- Benignity test of the coaching banner (lines 193-195):
`coaching_tag.get('href')` must be truthy (present and nonempty) and
end with `/Announcement`. -/
def coachingBenign (t : CoachingTag) : Bool :=
  match t.href with
  | some h => h ≠ "" ∧ pyEndsWith h "/Announcement"
  | Option.none => false

/-- Visible text of the coaching banner (line 197):
`' '.join(coaching_tag.find_all(text=True)).strip()`. -/
def coachingText (t : CoachingTag) : String :=
  pyStrip (joinSpace t.textNodes)

/-- `check_for_errors` (source lines 185-198): raise a
`ChaseOnlineBankingError` carrying the banner's visible text unless the
banner is absent or benign. -/
def checkForErrors (p : Page) : Except String Unit :=
  match p.coaching with
  | Option.none => .ok ()
  | some t =>
    if coachingBenign t then .ok ()
    else .error (coachingText t)

/-! ## Session manager: `navigate` and `login` (source lines 79-159)

The environment supplies the page each browser interaction lands on.
Form-control lookups (`getControl`, `getLink`) are assumed to succeed;
their absence would raise in ways no claim concerns.  `navigate` calls
`login()` with no arguments, so the `otp` argument is `None` and the
one-time code, when requested, comes from the interactive prompt or
callback, modelled by `promptOtp` (`none` stands for an empty reply). -/

structure LoginEnv where
  /-- `self.browser.open(url)`: the page served at `url`. -/
  pageOf : String → Page
  /-- Contents after `login_form.submit()` (credentials submission). -/
  afterCredSubmit : Page
  /-- Contents after the `Already Have` link, OTP fill and `Next` click
  (the path taken when an `otp` argument was passed). -/
  afterHaveOtpSubmit : Page
  /-- Contents after opening the verification link that requests the
  one-time code be sent. -/
  verificationPage : Page
  /-- Contents after filling the prompted code and clicking `Next`. -/
  afterPromptOtpSubmit : Page
  /-- Reply of `raw_input` / `otp_prompt_call` (`none`: empty reply). -/
  promptOtp : Option String

/-- `login` (source lines 91-159) with no `otp` argument, returning the
browser contents it leaves behind; `.error` when `check_for_errors`
raises.  After the credentials submission the result is checked for a
banner; when the activation marker is present the code is requested and,
if the prompt reply is truthy, submitted; a falsy reply leaves the
browser on the verification page.  A final banner check runs on
whatever page the browser then holds. -/
def loginFlow (env : LoginEnv) (otpArg : Option String) : Except String Page :=
  let p1 := env.afterCredSubmit
  match checkForErrors p1 with
  | .error m => .error m
  | .ok _ =>
    let final :=
      if p1.hasActivationMarker then
        match otpArg with
        | some _ => env.afterHaveOtpSubmit
        | Option.none =>
          match env.promptOtp with
          | some got =>
            if got ≠ "" then env.afterPromptOtpSubmit
            else env.verificationPage
          | Option.none => env.verificationPage
      else p1
    match checkForErrors final with
    | .error m => .error m
    | .ok _ => .ok final

/-- `navigate` (source lines 79-89): open the URL; when the served page
contains the login form, run `login()` (with no arguments) and return
whatever contents the browser then holds; otherwise return the served
page. -/
def navigate (env : LoginEnv) (url : String) : Except String Page :=
  let p := env.pageOf url
  if p.hasAuthForm then loginFlow env Option.none
  else .ok p

/-! ## Transaction history (source lines 312-399)

The per-call state is the `constructor` dict mapping each transaction
field to its current value (all `None` initially, reset after each
assembled record, and carried across page fetches).  A transaction is
the snapshot of that dict at a horizontal-rule row. -/

/-- `DebitAccountTransaction` fields (source lines 38-39). -/
def debitFields : List String :=
  ["name", "date", "amount", "balance"]

/-- `CreditAccountTransaction` fields (source lines 40-41). -/
def creditFields : List String :=
  ["name", "date", "type", "id", "amount", "memo"]

/-- A table row: one cell (with the row's joined text and whether the
row holds an `hr` element) or two cells (joined left/right text). -/
inductive TRow where
  | single : String → Bool → TRow
  | pair : String → String → TRow
deriving DecidableEq, Repr

/-- A transaction-history page: the number of tables found, the rows of
the second table, and the `Next` link.  `nextLink = none` models no
`Next` text node (the caught `AttributeError`, a normal return);
`some none` models a `Next` node whose parent has no `href` (an
uncaught `KeyError`); `some (some u)` is the next page URL. -/
structure TxPage where
  tablesCount : Nat
  rows : List TRow
  nextLink : Option (Option String)
deriving DecidableEq, Repr

/-- The site as seen by the pagination loop: the page text each
`self.agent.navigate(page)` call parses. -/
structure TxEnv where
  pages : String → TxPage

/-- Arguments fixed for one `transactions` call: the transaction-class
fields and the resolved `since` / `through` bounds, plus
`datetime.datetime.now()` captured at entry (dates as `dateKey`s). -/
structure TxCfg where
  fields : List String
  since : Nat
  through : Nat
  now : Nat
deriving DecidableEq, Repr

/-- `dict(constructor_defaults)`: every field mapped to `None`. -/
def ctorInit (fields : List String) : List (String × PyVal) :=
  fields.map (fun f => (f, PyVal.pnone))

/-- Python dict assignment `d[k] = v` (overwrite or append). -/
def ctorSet : List (String × PyVal) → String → PyVal → List (String × PyVal)
  | [], k, v => [(k, v)]
  | (k0, v0) :: rest, k, v =>
    if k0 = k then (k0, v) :: rest
    else (k0, v0) :: ctorSet rest k v

/-- Value of `constructor[k]` (every transaction field is initialised to
`None`, so a missing key reads as `None`). -/
def lookupPy (ctor : List (String × PyVal)) (k : String) : PyVal :=
  (ctor.lookup k).getD PyVal.pnone

/-- `self.transaction_class(**constructor)`: succeeds iff every
accumulated key is a field of the transaction class (a key outside the
class's fields raises `TypeError`). -/
def mkTx (fields : List String) (ctor : List (String × PyVal)) :
    Except String (List (String × PyVal)) :=
  if ctor.all (fun kv => fields.contains kv.1) then .ok ctor
  else .error "TypeError: unexpected constructor argument"

/-- `(transaction.date or now) < since` (line 364).  `None` is falsy, so
it reads as `now`.  A `Decimal` or `str` can only sit in the date field
if the page put a `$` amount there; Python 2 orders numbers below and
strings above `datetime` objects, which the last two arms mirror. -/
def pyCutLt (v : PyVal) (now since : Nat) : Bool :=
  match v with
  | .pnone => now < since
  | .pdate d => d < since
  | .pmoney s => if moneyTruthy s then true else now < since
  | .pstr s => if s = "" then now < since else false

/-- `through >= (transaction.date or now) >= since` (line 367), with the
same Python 2 cross-type ordering in the degenerate arms. -/
def pyWindow (v : PyVal) (now since through : Nat) : Bool :=
  match v with
  | .pnone => now ≤ through ∧ since ≤ now
  | .pdate d => d ≤ through ∧ since ≤ d
  | .pmoney s => if moneyTruthy s then false else (now ≤ through ∧ since ≤ now)
  | .pstr s => if s = "" then (now ≤ through ∧ since ≤ now) else false

/-- Outcome of scanning one page's rows: the constructor state to carry
to the next page, the early `return` triggered by a pre-window date, or
an uncaught exception. -/
inductive RowsOut where
  | done : List (String × PyVal) → RowsOut
  | cut : RowsOut
  | fail : String → RowsOut
deriving DecidableEq, Repr

/-- The row loop of `transactions` (source lines 353-393): returns the
transactions yielded on this page (in order) together with how the scan
ended.  A one-cell row either seeds the record's name (when `name` is
still `None`), assembles and windows the record at an `hr` marker, or is
ignored; a two-cell row feeds `coerceTxPair`. -/
def processRows (cfg : TxCfg) :
    List (String × PyVal) → List TRow → List (List (String × PyVal)) × RowsOut
  | ctor, [] => ([], .done ctor)
  | ctor, TRow.single text hr :: rs =>
    let rowtext := pyStrip text
    if lookupPy ctor "name" = PyVal.pnone then
      processRows cfg (ctorSet ctor "name" (.pstr (condenseWs rowtext))) rs
    else if hr then
      match mkTx cfg.fields ctor with
      | .error m => ([], .fail m)
      | .ok tx =>
        if pyCutLt (lookupPy tx "date") cfg.now cfg.since then ([], .cut)
        else
          let rest := processRows cfg (ctorInit cfg.fields) rs
          if pyWindow (lookupPy tx "date") cfg.now cfg.since cfg.through then
            (tx :: rest.1, rest.2)
          else rest
    else
      processRows cfg ctor rs
  | ctor, TRow.pair l r :: rs =>
    match coerceTxPair l r with
    | .error m => ([], .fail m)
    | .ok Option.none => processRows cfg ctor rs
    | .ok (some (ck, v)) => processRows cfg (ctorSet ctor ck v) rs

/-- Why the pagination loop stopped. -/
inductive Reason where
  | exhausted
  | dateCut
  | noNext
  | failed
deriving DecidableEq, Repr

/-- Result of a `transactions` call: the yielded records, how many pages
were fetched and scanned, why the loop stopped, and the uncaught
exception when it stopped by raising. -/
structure TxOut where
  txs : List (List (String × PyVal))
  examined : Nat
  reason : Reason
  err : Option String
deriving DecidableEq, Repr

/-- The `while maxpages` pagination loop (source lines 344-399), fuelled
by the remaining `maxpages` count exactly as the source decrements it. -/
def txGo (env : TxEnv) (cfg : TxCfg) :
    Nat → String → List (String × PyVal) → TxOut
  | 0, _, _ => ⟨[], 0, .exhausted, Option.none⟩
  | fuel + 1, url, ctor =>
    let pg := env.pages url
    if pg.tablesCount ≠ 2 then
      ⟨[], 1, .failed, some "ValueError: Expected 2 tables"⟩
    else
      let pr := processRows cfg ctor pg.rows
      match pr.2 with
      | .fail m => ⟨pr.1, 1, .failed, some m⟩
      | .cut => ⟨pr.1, 1, .dateCut, Option.none⟩
      | .done ctor2 =>
        match pg.nextLink with
        | Option.none => ⟨pr.1, 1, .noNext, Option.none⟩
        | some Option.none => ⟨pr.1, 1, .failed, some "KeyError: href"⟩
        | some (some url2) =>
          let rest := txGo env cfg fuel url2 ctor2
          ⟨pr.1 ++ rest.txs, rest.examined + 1, rest.reason, rest.err⟩

/-- `transactions(since, through, maxpages)` with resolved bounds. -/
def transactionsRun (env : TxEnv) (cfg : TxCfg) (startUrl : String)
    (maxpages : Nat) : TxOut :=
  txGo env cfg maxpages startUrl (ctorInit cfg.fields)

/-- `transactions` entry (source lines 333-343): a missing `since` or
`through` defaults to `datetime(1, 1, 1)` / `datetime(3000, 1, 1)`. -/
def transactionsCall (env : TxEnv) (fields : List String)
    (sinceArg throughArg : Option Nat) (now : Nat) (startUrl : String)
    (maxpages : Nat) : TxOut :=
  let through := throughArg.getD (dateKey 3000 1 1)
  let since := sinceArg.getD (dateKey 1 1 1)
  transactionsRun env ⟨fields, since, through, now⟩ startUrl maxpages

/-! ## Write-once attributes: `ChaseBankAccount.__setattr__`
(source lines 298-304)

The object is modelled by its instance `__dict__`.  Stored values are
either plain scraped values or a dict (the `attributes` mapping). -/

inductive AVal where
  | prim : PyVal → AVal
  | dict : List (String × PyVal) → AVal
deriving DecidableEq, Repr

/-- `object.__setattr__`: plain dict update of the instance `__dict__`. -/
def dictUpdate : List (String × AVal) → String → AVal → List (String × AVal)
  | [], k, v => [(k, v)]
  | (k0, v0) :: rest, k, v =>
    if k0 = k then (k0, v) :: rest
    else (k0, v0) :: dictUpdate rest k v

/-- `name in self.attributes`: key membership when the stored
`attributes` value is a dict; Python's substring test when it is a
string; a `TypeError` otherwise. -/
def aContains (name : String) : AVal → Except String Bool
  | .dict m => .ok (m.lookup name).isSome
  | .prim (.pstr s) => .ok (pyIn name s)
  | .prim _ => .error "TypeError: argument is not iterable"

/-- `__setattr__` (source lines 298-304): the assignment goes straight
through when the name is `attributes` or the object has no `attributes`
yet; otherwise a name present in the attributes mapping raises
`TypeError` and any other name is assigned. -/
def objSetattr (d : List (String × AVal)) (name : String) (v : AVal) :
    Except String (List (String × AVal)) :=
  if name = "attributes" ∨ (d.lookup "attributes").isNone then
    .ok (dictUpdate d name v)
  else
    match d.lookup "attributes" with
    | Option.none => .ok (dictUpdate d name v)
    | some av =>
      match aContains name av with
      | .error m => .error m
      | .ok true => .error ("Attribute \"" ++ name ++ "\" is read-only.")
      | .ok false => .ok (dictUpdate d name v)

/-! ## Credit-card payment: `ChaseCreditAccount.pay_from`
(source lines 408-506) -/

inductive PayPolicy where
  | statement
  | current
  | minimum
deriving DecidableEq, Repr

/-- The `amount` argument: one of the three symbolic policies
(`PAY_STATEMENT_BALANCE` / `PAY_CURRENT_BALANCE` /
`PAY_MINIMUM_BALANCE`) or a literal amount, stringified. -/
inductive PayAmount where
  | policy : PayPolicy → PayAmount
  | literal : String → PayAmount
deriving DecidableEq, Repr

/-- The pages `pay_from` drives, as the source inspects them. -/
structure PayEnv where
  /-- Anchors of the funding-source page (`navigate(self.payment_url)`):
  text and `href` of each `a` element, in document order. -/
  fundingLinks : List (String × String)
  /-- `PaymentOptionId` radio controls on the page at the chosen link:
  the joined text of each option's grandparent (its label) and the
  option's `value`. -/
  optionsFor : String → List (String × String)
  /-- Contents after the first `Submit` click. -/
  page1 : Page
  /-- `len(soup.find_all('table'))` on the first confirmation page. -/
  confirmTables : Nat
  /-- Joined text of each `tr` of that page's single table. -/
  confirmRows : List String
  /-- Contents after the second `Submit` click. -/
  page2 : Page
  /-- Contents after the third `Submit` click; `hasStep4` models
  `'Step 4 of 4' in self.browser.contents`. -/
  page3 : Page

/-- `soup.find('a', text=re.compile(re.escape(other.name)))`: the first
anchor whose text contains the name, returning its `href`. -/
def findFundingLink (links : List (String × String)) (name : String) :
    Option String :=
  match links.find? (fun tv => pyIn name tv.1) with
  | some tv => some tv.2
  | Option.none => Option.none

/-- Python dict assignment on the `payment_type_map`
(`none` keys the `Other amount` option, as the source's `None`). -/
def mapInsert : List (Option PayPolicy × String) → Option PayPolicy → String →
    List (Option PayPolicy × String)
  | [], k, v => [(k, v)]
  | (k0, v0) :: rest, k, v =>
    if k0 = k then (k0, v) :: rest
    else (k0, v0) :: mapInsert rest k v

/-- The option scan (source lines 452-461): classify each radio control
by the substrings of its label. -/
def scanOptions : List (String × String) → List (Option PayPolicy × String) →
    List (Option PayPolicy × String)
  | [], acc => acc
  | (label, value) :: rest, acc =>
    let acc2 :=
      if pyIn "Statement balance" label then mapInsert acc (some .statement) value
      else if pyIn "Current Balance" label then mapInsert acc (some .current) value
      else if pyIn "Minimum payment" label then mapInsert acc (some .minimum) value
      else if pyIn "Other amount" label then mapInsert acc Option.none value
      else acc
    scanOptions rest acc2

/-- Scrape of the `Total payment amount:` row (source lines 477-492):
find the first row whose stripped text contains the marker, take the
last whitespace-separated word, drop its first character (the `$`), and
parse it as a `Decimal`. -/
def scrapePayment (tables : Nat) (rows : List String) : Except String String :=
  if tables ≠ 1 then .error "ValueError: Expected 1 table"
  else
    match rows.find? (fun rt => pyIn "Total payment amount:" (pyStrip rt)) with
    | Option.none => .error "Could not scrape total payment amount."
    | some rt =>
      match (pySplitWs (pyStrip rt)).getLast? with
      | Option.none => .error "IndexError: list index out of range"
      | some w =>
        let usd := String.mk (w.data.drop 1)
        if decValid usd then .ok usd
        else .error "decimal.InvalidOperation"

/-- Result of `pay_from`: the value of the `return payment` statement
(or the exception raised), together with how many `Submit` clicks had
happened by then. -/
structure PayOut where
  result : Except String String
  submits : Nat
deriving DecidableEq, Repr

/-- `pay_from` (source lines 408-506).  `otherIsDebit` models the
`isinstance` test; a literal amount must parse as a float; the funding
link is found by name containment (its absence raises before any form
submission); the options page is scanned, the matching radio selected,
and three `Submit` clicks follow with a banner check after each.  On
the symbolic-policy path the confirmation table is scraped into the
local `payment`; on the literal path `payment` is never assigned, so
the final `return payment` raises `UnboundLocalError`. -/
def payFrom (env : PayEnv) (otherIsDebit : Bool) (otherName : String)
    (amount : PayAmount) : PayOut :=
  if !otherIsDebit then
    ⟨.error "TypeError: `other` must be a ChaseDebitAccount instance.", 0⟩
  else
    let amountOk :=
      match amount with
      | .policy _ => true
      | .literal s => pyFloatValid s
    if !amountOk then
      ⟨.error "ValueError: does not appear to be a number.", 0⟩
    else
      match findFundingLink env.fundingLinks otherName with
      | Option.none => ⟨.error (otherName ++ " cannot be used for payment."), 0⟩
      | some url =>
        let opts := env.optionsFor url
        if opts.isEmpty then ⟨.error "Unable to find payment options.", 0⟩
        else
          let tmap := scanOptions opts []
          let sel : Except String Unit :=
            match amount with
            | .literal _ =>
              match tmap.lookup Option.none with
              | some _ => .ok ()
              | Option.none => .error "KeyError: None"
            | .policy p =>
              match tmap.lookup (some p) with
              | some _ => .ok ()
              | Option.none => .error "Selected payment type cannot be used."
          match sel with
          | .error m => ⟨.error m, 0⟩
          | .ok _ =>
            match checkForErrors env.page1 with
            | .error m => ⟨.error m, 1⟩
            | .ok _ =>
              let paymentE : Except String (Option String) :=
                match amount with
                | .literal _ => .ok Option.none
                | .policy _ =>
                  match scrapePayment env.confirmTables env.confirmRows with
                  | .error m => .error m
                  | .ok v => .ok (some v)
              match paymentE with
              | .error m => ⟨.error m, 1⟩
              | .ok payment? =>
                match checkForErrors env.page2 with
                | .error m => ⟨.error m, 2⟩
                | .ok _ =>
                  match checkForErrors env.page3 with
                  | .error m => ⟨.error m, 3⟩
                  | .ok _ =>
                    if !env.page3.hasStep4 then
                      ⟨.error "Unknown problem while submitting transfer.", 3⟩
                    else
                      match payment? with
                      | some pmt => ⟨.ok pmt, 3⟩
                      | Option.none =>
                        ⟨.error "UnboundLocalError: local variable referenced before assignment", 3⟩

/-! ## Helper lemmas -/

/-- Updating one key of a dict leaves the lookup of any other key alone. -/
theorem lookup_dictUpdate_ne (d : List (String × AVal)) (k : String)
    (v : AVal) (k2 : String) (h : k2 ≠ k) :
    (dictUpdate d k v).lookup k2 = d.lookup k2 := by
  induction d with
  | nil => simp [dictUpdate, List.lookup, beq_eq_false_iff_ne.mpr h]
  | cons kv rest ih =>
    obtain ⟨k0, v0⟩ := kv
    by_cases h0 : k0 = k
    · subst h0
      simp [dictUpdate, List.lookup, beq_eq_false_iff_ne.mpr h]
    · cases hbe : (k2 == k0) <;>
        simp [dictUpdate, h0, List.lookup, hbe, ih]

/-! ## Claims -/

/-- C7: `check_for_errors` raises a banking error iff the page holds a
coaching banner that is not a benign announcement link; the raised
error carries exactly the banner's visible text — the source's
space-joined concatenation of its text nodes, whitespace-trimmed — and
an absent or benign banner returns normally. -/
theorem check_for_errors_spec (p : Page) :
    ((∃ m, checkForErrors p = .error m) ↔
      ∃ t, p.coaching = some t ∧ coachingBenign t = false)
    ∧ (∀ t, p.coaching = some t → coachingBenign t = false →
        checkForErrors p = .error (pyStrip (joinSpace t.textNodes)))
    ∧ ((p.coaching = Option.none ∨
          ∃ t, p.coaching = some t ∧ coachingBenign t = true) →
        checkForErrors p = .ok ()) := by
  refine ⟨⟨?_, ?_⟩, ?_, ?_⟩
  · rintro ⟨m, hm⟩
    cases hc : p.coaching with
    | none => simp [checkForErrors, hc] at hm
    | some t =>
      by_cases hb : coachingBenign t
      · simp [checkForErrors, hc, hb] at hm
      · exact ⟨t, rfl, by simpa using hb⟩
  · rintro ⟨t, hc, hb⟩
    exact ⟨coachingText t, by simp [checkForErrors, hc, hb]⟩
  · intro t hc hb
    simp [checkForErrors, hc, hb, coachingText]
  · rintro (hc | ⟨t, hc, hb⟩)
    · simp [checkForErrors, hc]
    · simp [checkForErrors, hc, hb]

/-- Concrete page exhibiting a non-benign coaching banner. -/
def coachW : CoachingTag :=
  ⟨Option.none, [" Please", "log in "]⟩

/-- Page carrying `coachW`. -/
def pageW : Page :=
  ⟨false, some coachW, false, false, "w"⟩

/-- Witness for C7: the banner of `pageW` is raised with its trimmed,
space-joined text. -/
theorem check_for_errors_spec_witness :
    checkForErrors pageW = .error "Please log in" := by
  have h := (check_for_errors_spec pageW).2.1 coachW rfl rfl
  exact h.trans (by decide)

/-- C5: in transaction-row coercion the memo exemption is dead code —
the recognised memo column wordizes to `memo_description`, not `memo`
(`row_key_map` has no `memo` key at all), so an empty memo cell is
coerced to `None` rather than keeping its empty text. -/
theorem memo_empty_coerced_to_none :
    coerceTxPair "Memo / Description" "" = .ok (some ("memo", PyVal.pnone))
    ∧ rowKeyMap "memo" = Option.none := by
  exact ⟨by decide, by decide⟩

/-- Counterexample for C4: in the transaction-history coercion a
date-field value containing `/` that does not parse as three integers
raises an uncaught `ValueError` instead of being left as raw text. -/
theorem tx_date_heuristic_raises :
    coerceTxPair "Date" "N/A" = .error "ValueError: invalid date" := by
  decide

/-- C4 (amended): the failed date heuristic is silent only in the
accounts-list coercion; the transaction-history coercion has no
contains-`/` heuristic — values on non-date fields stay raw text
regardless of `/`, while an unparseable non-`Pending` date-field value
raises. -/
theorem date_heuristic_amended :
    (∀ v : String,
      ¬ (pyStartsWith (pyStrip v) "$" = true ∨
          pyStartsWith (pyStrip v) "-$" = true) →
      (pyStrip v).data.contains '/' = true →
      parseDateMDY (pyStrip v) = Option.none →
      coerceAccountValue v = .ok (.pstr (pyStrip v)))
    ∧ (∀ l r ck, rowKeyMap (wordize l) = some ck → ck ≠ "date" →
      ¬ (pyStartsWith (pyStrip r) "$" = true ∨
          pyStartsWith (pyStrip r) "-$" = true) →
      ¬ (pyStrip r = "--" ∨ (pyStrip r = "" ∧ wordize l ≠ "memo")) →
      coerceTxPair l r = .ok (some (ck, .pstr (pyStrip r))))
    ∧ (∀ l r ck, rowKeyMap (wordize l) = some ck → ck = "date" →
      ¬ (pyStartsWith (pyStrip r) "$" = true ∨
          pyStartsWith (pyStrip r) "-$" = true) →
      ¬ (pyStrip r = "--" ∨ (pyStrip r = "" ∧ wordize l ≠ "memo")) →
      pyStrip r ≠ "Pending" →
      parseDateMDY (pyStrip r) = Option.none →
      coerceTxPair l r = .error "ValueError: invalid date") := by
  refine ⟨?_, ?_, ?_⟩
  · intro v hs hslash hparse
    simp [coerceAccountValue, hs, hslash, hparse]
  · intro l r ck hk hck hs hne
    simp [coerceTxPair, hk, hck, hs, hne]
  · intro l r ck hk hck hs hne hpend hparse
    simp [coerceTxPair, hk, hck, hs, hne, hpend, hparse]

/-- Witness for C4 (amended): one instance of each conjunct — the
accounts heuristic keeps `N/A` raw, a non-date transaction field keeps
`1/x` raw, and an out-of-range transaction date raises. -/
theorem date_heuristic_amended_witness :
    coerceAccountValue "N/A" = .ok (.pstr "N/A")
    ∧ coerceTxPair "Type" "1/x" = .ok (some ("type", .pstr "1/x"))
    ∧ coerceTxPair "Transaction Date" "13/45/2024" =
        .error "ValueError: invalid date" := by
  refine ⟨?_, ?_, ?_⟩
  · exact (date_heuristic_amended.1 "N/A" (by decide) (by decide)
      (by decide)).trans (by decide)
  · exact (date_heuristic_amended.2.1 "Type" "1/x" "type" (by decide)
      (by decide) (by decide) (by decide)).trans (by decide)
  · exact date_heuristic_amended.2.2 "Transaction Date" "13/45/2024" "date"
      (by decide) (by decide) (by decide) (by decide) (by decide) (by decide)

/-- Instance `__dict__` whose attributes mapping itself contains the
key `attributes`. -/
def acctDict0 : List (String × AVal) :=
  [("attributes",
     .dict [("attributes", .pstr "x"), ("balance", .pmoney "5")]),
   ("name", .prim (.pstr "Acct"))]

/-- Counterexample for C8: the name `attributes` is present in the
attributes mapping of `acctDict0`, yet assigning it succeeds and
replaces the whole mapping — the claim's "every attribute name already
present in the mapping fails" is false for the name `attributes`. -/
theorem setattr_attributes_bypass :
    aContains "attributes"
        (AVal.dict [("attributes", .pstr "x"), ("balance", .pmoney "5")]) =
        .ok true
    ∧ objSetattr acctDict0 "attributes" (AVal.dict []) =
        .ok [("attributes", AVal.dict []), ("name", AVal.prim (.pstr "Acct"))] := by
  exact ⟨by decide, by decide⟩

/-- C8 (amended): for every name other than `attributes` that is a key
of the attributes mapping, assignment raises and (the state being
returned only on success) leaves the object unchanged; a name outside
the mapping is assigned, and the attributes mapping survives that
assignment intact. -/
theorem setattr_write_once (d : List (String × AVal)) (name : String)
    (v : AVal) (m : List (String × PyVal))
    (hattr : d.lookup "attributes" = some (.dict m))
    (hname : name ≠ "attributes") :
    ((m.lookup name).isSome = true →
      objSetattr d name v =
        .error ("Attribute \"" ++ name ++ "\" is read-only."))
    ∧ ((m.lookup name).isSome = false →
      objSetattr d name v = .ok (dictUpdate d name v)
      ∧ (dictUpdate d name v).lookup "attributes" = some (.dict m)) := by
  constructor
  · intro hmem
    simp [objSetattr, hattr, hname, aContains, hmem]
  · intro hmem
    refine ⟨by simp [objSetattr, hattr, hname, aContains, hmem], ?_⟩
    rw [lookup_dictUpdate_ne d name v "attributes" (fun h => hname h.symm)]
    · exact hattr

/-- Witness dict for C8 (amended). -/
def acctDictW : List (String × AVal) :=
  [("attributes", .dict [("balance", .pmoney "5")]),
   ("name", .prim (.pstr "Acct"))]

/-- Witness for C8 (amended): overwriting the scraped `balance` raises;
assigning the fresh name `note` succeeds and keeps the mapping. -/
theorem setattr_write_once_witness :
    objSetattr acctDictW "balance" (.prim (.pstr "9")) =
      .error "Attribute \"balance\" is read-only."
    ∧ objSetattr acctDictW "note" (.prim (.pstr "n")) =
      .ok (dictUpdate acctDictW "note" (.prim (.pstr "n"))) := by
  constructor
  · exact ((setattr_write_once acctDictW "balance" (.prim (.pstr "9"))
      [("balance", .pmoney "5")] rfl (by decide)).1 (by decide)).trans
      (by decide)
  · exact ((setattr_write_once acctDictW "note" (.prim (.pstr "n"))
      [("balance", .pmoney "5")] rfl (by decide)).2 (by decide)).1

/-- C3: when no anchor on the funding-source page contains the debit
account's name, `pay_from` fails with the usage error naming that
account, with zero `Submit` clicks performed. -/
theorem pay_from_missing_link (env : PayEnv) (otherName : String)
    (amount : PayAmount)
    (hnum : ∀ s, amount = .literal s → pyFloatValid s = true)
    (hnolink : env.fundingLinks.all (fun tv => !(pyIn otherName tv.1)) = true) :
    payFrom env true otherName amount =
      ⟨.error (otherName ++ " cannot be used for payment."), 0⟩ := by
  have hfind : findFundingLink env.fundingLinks otherName = Option.none := by
    unfold findFundingLink
    rw [List.find?_eq_none.mpr]
    intro x hx
    have := List.all_eq_true.mp hnolink x hx
    simpa using this
  cases amount with
  | policy p => simp [payFrom, hfind]
  | literal s => simp [payFrom, hnum s rfl, hfind]

/-- Funding-source page for the C3 witness: only a savings account. -/
def envC3 : PayEnv :=
  ⟨[("My Savings", "u")], fun _ => [], ⟨false, Option.none, false, false, "1"⟩,
    1, [], ⟨false, Option.none, false, false, "2"⟩,
    ⟨false, Option.none, false, false, "3"⟩⟩

/-- Witness for C3 at a concrete environment. -/
theorem pay_from_missing_link_witness :
    payFrom envC3 true "My Checking" (.policy .statement) =
      ⟨.error "My Checking cannot be used for payment.", 0⟩ := by
  exact (pay_from_missing_link envC3 "My Checking" (.policy .statement)
    (fun s hs => by cases hs) (by decide)).trans (by decide)

/-- C10: on the literal-amount path, even when every navigation, form
submission, banner check and the final `Step 4 of 4` check succeed,
`pay_from` does not return normally — the `payment` local is assigned
only on the symbolic-policy branch, so `return payment` raises. -/
theorem pay_from_literal_unbound (env : PayEnv) (otherName s url v : String)
    (hnum : pyFloatValid s = true)
    (hlink : findFundingLink env.fundingLinks otherName = some url)
    (hopts : (env.optionsFor url).isEmpty = false)
    (hother : (scanOptions (env.optionsFor url) []).lookup Option.none = some v)
    (h1 : checkForErrors env.page1 = .ok ())
    (h2 : checkForErrors env.page2 = .ok ())
    (h3 : checkForErrors env.page3 = .ok ())
    (h4 : env.page3.hasStep4 = true) :
    payFrom env true otherName (.literal s) =
      ⟨.error "UnboundLocalError: local variable referenced before assignment",
        3⟩ := by
  simp [payFrom, hnum, hlink, hopts, hother, h1, h2, h3, h4]

/-- Environment for the C10 witness: one funding link, an
`Other amount` radio, clean confirmation pages, `Step 4 of 4` shown. -/
def envC10 : PayEnv :=
  ⟨[("My Checking", "u1")], fun _ => [("Pay: Other amount", "7")],
    ⟨false, Option.none, false, false, "1"⟩, 1, [],
    ⟨false, Option.none, false, false, "2"⟩,
    ⟨false, Option.none, false, true, "3"⟩⟩

/-- Witness for C10 at a concrete environment. -/
theorem pay_from_literal_unbound_witness :
    payFrom envC10 true "My Checking" (.literal "25.00") =
      ⟨.error "UnboundLocalError: local variable referenced before assignment",
        3⟩ := by
  exact pay_from_literal_unbound envC10 "My Checking" "25.00" "u1" "7"
    (by decide) (by decide) (by decide) (by decide) rfl rfl rfl rfl

/-- Login-form page served by the C1 counterexample site. -/
def pageLoginC1 : Page :=
  ⟨true, Option.none, false, false, "login-form"⟩

/-- Page the login sequence ends on in the C1 counterexample. -/
def pagePostC1 : Page :=
  ⟨false, Option.none, false, false, "post-login"⟩

/-- C1 counterexample environment: every fetch of the requested URL
serves the login form; credentials submission lands on `pagePostC1`. -/
def envC1 : LoginEnv :=
  ⟨fun _ => pageLoginC1, pagePostC1, pagePostC1, pagePostC1, pagePostC1,
    Option.none⟩

/-- Counterexample for C1: `navigate` returns the page the login
sequence ended on, which differs from the content served at the
requested URL — there is no re-fetch. -/
theorem navigate_no_refetch :
    navigate envC1 "https://acct" = .ok pagePostC1
    ∧ envC1.pageOf "https://acct" ≠ pagePostC1 := by
  exact ⟨by decide, by decide⟩

/-- C1 (amended): `navigate(url)` fetches the page and returns it
directly when no login form is present; when the login form is present
it runs `login()` and returns whatever page that sequence left the
browser on (the post-credentials page, the post-OTP page, or the
verification page), never re-fetching the requested URL. -/
theorem navigate_amended (env : LoginEnv) (url : String) :
    ((env.pageOf url).hasAuthForm = false →
      navigate env url = .ok (env.pageOf url))
    ∧ ((env.pageOf url).hasAuthForm = true →
      navigate env url = loginFlow env Option.none
      ∧ ∀ p, navigate env url = .ok p →
          (p = env.afterCredSubmit ∨ p = env.afterPromptOtpSubmit ∨
            p = env.verificationPage)) := by
  constructor
  · intro h
    simp [navigate, h]
  · intro h
    refine ⟨by simp [navigate, h], ?_⟩
    intro p hp
    have hnav : navigate env url = loginFlow env Option.none := by
      simp [navigate, h]
    rw [hnav] at hp
    cases hcE : checkForErrors env.afterCredSubmit with
    | error m => simp [loginFlow, hcE] at hp
    | ok u =>
      by_cases hact : env.afterCredSubmit.hasActivationMarker = true
      · cases hpr : env.promptOtp with
        | none =>
          cases hcF : checkForErrors env.verificationPage with
          | error m => simp [loginFlow, hcE, hact, hpr, hcF] at hp
          | ok u2 =>
            simp [loginFlow, hcE, hact, hpr, hcF] at hp
            exact Or.inr (Or.inr hp.symm)
        | some got =>
          by_cases hgot : got = ""
          · cases hcF : checkForErrors env.verificationPage with
            | error m => simp [loginFlow, hcE, hact, hpr, hgot, hcF] at hp
            | ok u2 =>
              simp [loginFlow, hcE, hact, hpr, hgot, hcF] at hp
              exact Or.inr (Or.inr hp.symm)
          · cases hcF : checkForErrors env.afterPromptOtpSubmit with
            | error m => simp [loginFlow, hcE, hact, hpr, hgot, hcF] at hp
            | ok u2 =>
              simp [loginFlow, hcE, hact, hpr, hgot, hcF] at hp
              exact Or.inr (Or.inl hp.symm)
      · simp [loginFlow, hcE, hact] at hp
        exact Or.inl hp.symm

/-- Environment whose pages carry no login form, for the C1 witness. -/
def envC1b : LoginEnv :=
  ⟨fun _ => pagePostC1, pagePostC1, pagePostC1, pagePostC1, pagePostC1,
    Option.none⟩

/-- Witness for C1 (amended): without a login form `navigate` returns
the fetched page; with one it returns a page of the login sequence. -/
theorem navigate_amended_witness :
    navigate envC1b "u" = .ok (envC1b.pageOf "u")
    ∧ (pagePostC1 = envC1.afterCredSubmit ∨
        pagePostC1 = envC1.afterPromptOtpSubmit ∨
        pagePostC1 = envC1.verificationPage) := by
  constructor
  · exact (navigate_amended envC1b "u").1 rfl
  · exact ((navigate_amended envC1 "u").2 rfl).2 pagePostC1 (by decide)

/-- C2: at an assembled transaction whose date field holds a date `k`
(read as `k`) or `None` (read as `now`), the row loop returns
immediately — yielding nothing further on the page — exactly when that
reading is strictly before `since`; otherwise the transaction is
yielded iff its reading lies in `[since, through]` (in particular a
transaction dated exactly `since` is yielded when `since ≤ through`),
and a page scan that ended in the early return stops the pagination
loop with no further page fetched. -/
theorem transactions_window (cfg : TxCfg) (tx : List (String × PyVal))
    (d : Option Nat) (text : String) (rs : List TRow)
    (hname : lookupPy tx "name" ≠ PyVal.pnone)
    (hkeys : tx.all (fun kv => cfg.fields.contains kv.1) = true)
    (hdate : lookupPy tx "date" =
      (match d with
        | some k => PyVal.pdate k
        | Option.none => PyVal.pnone)) :
    (d.getD cfg.now < cfg.since →
      processRows cfg tx (TRow.single text true :: rs) = ([], .cut))
    ∧ (cfg.since ≤ d.getD cfg.now → d.getD cfg.now ≤ cfg.through →
      processRows cfg tx (TRow.single text true :: rs) =
        (tx :: (processRows cfg (ctorInit cfg.fields) rs).1,
          (processRows cfg (ctorInit cfg.fields) rs).2))
    ∧ (cfg.since ≤ d.getD cfg.now → cfg.through < d.getD cfg.now →
      processRows cfg tx (TRow.single text true :: rs) =
        processRows cfg (ctorInit cfg.fields) rs)
    ∧ (∀ (env : TxEnv) (url : String) (fuel : Nat)
        (ctor0 : List (String × PyVal)),
        (env.pages url).tablesCount = 2 →
        (processRows cfg ctor0 (env.pages url).rows).2 = .cut →
        txGo env cfg (fuel + 1) url ctor0 =
          ⟨(processRows cfg ctor0 (env.pages url).rows).1, 1, .dateCut,
            Option.none⟩) := by
  have hcut : pyCutLt (lookupPy tx "date") cfg.now cfg.since =
      decide (d.getD cfg.now < cfg.since) := by
    rw [hdate]
    cases d <;> simp [pyCutLt]
  have hwin : pyWindow (lookupPy tx "date") cfg.now cfg.since cfg.through =
      (decide (d.getD cfg.now ≤ cfg.through) &&
        decide (cfg.since ≤ d.getD cfg.now)) := by
    rw [hdate]
    cases d <;> simp [pyWindow]
  have hmk : mkTx cfg.fields tx = .ok tx := by
    unfold mkTx
    rw [if_pos hkeys]
  refine ⟨?_, ?_, ?_, ?_⟩
  · intro hlt
    simp [processRows, hname, hmk, hcut, hlt]
  · intro hge hle
    simp [processRows, hname, hmk, hcut, hwin,
      Nat.not_lt.mpr hge, hge, hle]
  · intro hge hgt
    simp [processRows, hname, hmk, hcut, hwin,
      Nat.not_lt.mpr hge, Nat.not_le.mpr hgt]
  · intro env url fuel ctor0 htab hc
    simp [txGo, htab, hc]

/-- Concrete transaction and configuration for the C2 witness. -/
def cfgW : TxCfg :=
  ⟨["name", "date"], 4, 9, 7⟩

/-- Assembled constructor snapshot for the C2 witness. -/
def txW : List (String × PyVal) :=
  [("name", .pstr "COFFEE"), ("date", .pdate 5)]

/-- Witness for C2: a transaction dated inside the window is yielded,
and one dated before `since` cuts the scan. -/
theorem transactions_window_witness :
    processRows cfgW txW [TRow.single "x" true] =
      ([txW], .done (ctorInit cfgW.fields))
    ∧ processRows cfgW [("name", .pstr "N"), ("date", .pdate 3)]
        [TRow.single "x" true] = ([], .cut) := by
  constructor
  · exact ((transactions_window cfgW txW (some 5) "x" [] (by decide)
      (by decide) (by decide)).2.1 (by decide) (by decide)).trans (by decide)
  · exact (transactions_window cfgW [("name", .pstr "N"), ("date", .pdate 3)]
      (some 3) "x" [] (by decide) (by decide) (by decide)).1 (by decide)

/-- Pagination bound for C9, by induction on the remaining fuel. -/
theorem txGo_bound (env : TxEnv) (cfg : TxCfg) (fuel : Nat) (url : String)
    (ctor : List (String × PyVal)) :
    (txGo env cfg fuel url ctor).examined ≤ fuel
    ∧ ((txGo env cfg fuel url ctor).reason = .exhausted →
        (txGo env cfg fuel url ctor).err = Option.none)
    ∧ ((txGo env cfg fuel url ctor).reason = .noNext →
        (txGo env cfg fuel url ctor).err = Option.none) := by
  induction fuel generalizing url ctor with
  | zero => simp [txGo]
  | succ n ih =>
    by_cases htab : (env.pages url).tablesCount = 2
    · cases hpr : (processRows cfg ctor (env.pages url).rows).2 with
      | fail m => simp [txGo, htab, hpr]
      | cut => simp [txGo, htab, hpr]
      | done ctor2 =>
        cases hnx : (env.pages url).nextLink with
        | none => simp [txGo, htab, hpr, hnx]
        | some u2 =>
          cases u2 with
          | none => simp [txGo, htab, hpr, hnx]
          | some url2 =>
            have h := ih url2 ctor2
            have hstep : txGo env cfg (n + 1) url ctor =
                ⟨(processRows cfg ctor (env.pages url).rows).1 ++
                    (txGo env cfg n url2 ctor2).txs,
                  (txGo env cfg n url2 ctor2).examined + 1,
                  (txGo env cfg n url2 ctor2).reason,
                  (txGo env cfg n url2 ctor2).err⟩ := by
              simp [txGo, htab, hpr, hnx]
            rw [hstep]
            refine ⟨Nat.succ_le_succ h.1, ?_, ?_⟩
            · intro hr
              exact h.2.1 hr
            · intro hr
              exact h.2.2 hr
    · simp [txGo, htab]

/-- C9: a `transactions` call fetches at most `maxpages` pages, and when
the loop stops because the bound is exhausted, or because a page has no
`Next` link, it terminates without an error. -/
theorem transactions_maxpages (env : TxEnv) (cfg : TxCfg) (url : String)
    (maxpages : Nat) :
    (transactionsRun env cfg url maxpages).examined ≤ maxpages
    ∧ ((transactionsRun env cfg url maxpages).reason = .exhausted →
        (transactionsRun env cfg url maxpages).err = Option.none)
    ∧ ((transactionsRun env cfg url maxpages).reason = .noNext →
        (transactionsRun env cfg url maxpages).err = Option.none) := by
  unfold transactionsRun
  exact txGo_bound env cfg maxpages url (ctorInit cfg.fields)

/-- One-page site for the C9 witness: a well-formed page with a single
yielded transaction and no `Next` link. -/
def envC9 : TxEnv :=
  ⟨fun _ =>
    ⟨2, [TRow.single "COFFEE" false, TRow.pair "Date" "03/14/2024",
        TRow.single "end" true], Option.none⟩⟩

/-- Witness for C9: with zero fuel the exhausted loop ends cleanly, and
with fuel 2 the `Next`-less page ends the loop cleanly after one page. -/
theorem transactions_maxpages_witness :
    (transactionsRun envC9 cfgW "u" 0).examined ≤ 0
    ∧ (transactionsRun envC9 cfgW "u" 0).err = Option.none
    ∧ (transactionsRun envC9 cfgW "u" 2).examined ≤ 2
    ∧ (transactionsRun envC9 cfgW "u" 2).err = Option.none := by
  refine ⟨(transactions_maxpages envC9 cfgW "u" 0).1,
    (transactions_maxpages envC9 cfgW "u" 0).2.1 (by decide),
    (transactions_maxpages envC9 cfgW "u" 2).1,
    (transactions_maxpages envC9 cfgW "u" 2).2.2 (by decide)⟩

/-- The scanning deletion pass of `wordize` agrees with its positional
description: the character at index `i` survives iff it is not an
underscore whose neighbour on one side is missing or a non-word
character. -/
theorem wbStrip_eq_stripSpecFrom (cs : List Char) : ∀ prev,
    wbStrip prev cs = stripSpecFrom prev cs := by
  induction cs with
  | nil =>
    intro prev
    simp [wbStrip, stripSpecFrom]
  | cons c rest ih =>
    intro prev
    have hk0 : keepIdx prev (c :: rest) 0 =
        (if c = '_' then isWordOpt prev && isWordOpt rest.head? else true) := by
      by_cases hcu : c = '_' <;>
        cases hA : isWordOpt prev <;>
        cases hB : isWordOpt rest.head? <;>
        simp [keepIdx, List.get?_zero, hcu, hA, hB, ← List.head?_eq_getElem?]
    have hkS : ∀ i, keepIdx prev (c :: rest) (i + 1) = keepIdx (some c) rest i := by
      intro i
      cases i with
      | zero => simp [keepIdx, List.get?_zero]
      | succ j => simp [keepIdx]
    have hspec : stripSpecFrom prev (c :: rest) =
        (if keepIdx prev (c :: rest) 0 then c :: stripSpecFrom (some c) rest
          else stripSpecFrom (some c) rest) := by
      unfold stripSpecFrom
      rw [List.length_cons, List.range_succ_eq_map, List.filterMap_cons,
        List.filterMap_map]
      have hcomp : ((fun i => if keepIdx prev (c :: rest) i then (c :: rest).get? i
            else Option.none) ∘ Nat.succ) =
          (fun i => if keepIdx (some c) rest i then rest.get? i
            else Option.none) := by
        funext i
        simp [Function.comp, hkS i]
      rw [hcomp]
      by_cases h0 : keepIdx prev (c :: rest) 0
      · simp [h0]
      · simp [h0]
    rw [hspec, hk0]
    by_cases hcu : c = '_'
    · subst hcu
      cases hA : isWordOpt prev <;> cases hB : isWordOpt rest.head? <;>
        simp [wbStrip, hA, hB, ih]
    · simp [wbStrip, hcu, ih]

/-- Counterexample for C6: the claim preserves internal underscores
adjacent to hyphens, but `wordize` deletes them — `"a -b"` collapses to
`"a_-b"` and the underscore, sitting at a word boundary created by the
hyphen, is then removed. -/
theorem wordize_hyphen_counterexample :
    wordize "a -b" = "a-b" ∧ claimWordize "a -b" = "a_-b" ∧
      wordize "a -b" ≠ claimWordize "a -b" := by
  exact ⟨by decide, by decide, by decide⟩

/-- C6 (amended): `wordize` lower-cases, collapses each run of
characters outside `[a-z0-9_-]` into one underscore, and then deletes
exactly those underscores standing at a word boundary — at the start or
end of the string or adjacent to a non-word character such as a hyphen
— so underscores flanked by word characters on both sides are
preserved; `wordize "Available Credit:" = "available_credit"`. -/
theorem wordize_amended :
    (∀ s : String, wordize s =
      String.mk (stripSpecFrom Option.none
        (collapseRuns (s.data.map Char.toLower))))
    ∧ wordize "Available Credit:" = "available_credit" := by
  refine ⟨?_, by decide⟩
  intro s
  unfold wordize
  rw [wbStrip_eq_stripSpecFrom]

end Coba
